import Mathlib

/-!
Shallow embedding of the `httpprom` Go package (HTTP server prometheus
middleware) and verification of its specification claims.

Files embedded:
* `lookup.go` — method/code normalization tables with fallback.
* `mux.go` — middleware configuration, label coalescing, instrumented
  handler control flow (pending gauge / completed counter).
* `internal/forked/prometheus/promhttp/delegator.go` — the capability
  preserving response-writer delegate with its 32-entry dispatch table.

Go maps are modelled as association lists, Go interface type assertions as
`Option`-valued capability fields, metric mutation as an appended event
trace, and a handler panic as an explicit `Outcome.panicked` result.
-/

namespace Httpprom

/-! ### lookup.go -/

/-- ASCII lowercasing of a single character, the behavior of Go's
`strings.ToLower` on the ASCII method tokens used by this package. -/
def asciiLowerChar (c : Char) : Char :=
  if 'A' ≤ c ∧ c ≤ 'Z' then Char.ofNat (c.toNat + 32) else c

/-- Model of `strings.ToLower`: lowercase each character. -/
def toLower (s : String) : String := ⟨s.data.map asciiLowerChar⟩

/-- Model of `strconv.Itoa` on Go ints. -/
def itoa (i : Int) : String := toString i

/-- The `methods` slice: the nine standard `net/http` method constants. -/
def methods : List String :=
  ["GET", "HEAD", "POST", "PUT", "PATCH", "DELETE", "CONNECT", "OPTIONS", "TRACE"]

/-- The `methodTable` map as built by `init()` in `lookup.go`:
for each standard method, both the token itself and its lowercase form
map to the lowercase form. Modelled as an association list. -/
def methodTable : List (String × String) :=
  methods.foldl
    (fun t method =>
      let lower := toLower method
      (lower, lower) :: (method, lower) :: t)
    []

/-- `lookupMethod` from `lookup.go`: table hit, else generic lowercase. -/
def lookupMethod (method : String) : String :=
  match methodTable.lookup method with
  | some s => s
  | none => toLower method

/-- The `codes` slice: the standard `net/http` status code constants. -/
def codes : List Int :=
  [100, 101, 102, 103,
   200, 201, 202, 203, 204, 205, 206, 207, 208, 226,
   300, 301, 302, 303, 304, 305, 307, 308,
   400, 401, 402, 403, 404, 405, 406, 407, 408, 409, 410, 411, 412, 413,
   414, 415, 416, 417, 418, 421, 422, 423, 424, 425, 426, 428, 429, 431, 451,
   500, 501, 502, 503, 504, 505, 506, 507, 508, 510, 511]

/-- The `codeTable` map as built by `init()` in `lookup.go`. -/
def codeTable : List (Int × String) :=
  codes.foldl (fun t code => (code, itoa code) :: t) []

/-- `lookupCode` from `lookup.go`: table hit, else generic conversion. -/
def lookupCode (code : Int) : String :=
  match codeTable.lookup code with
  | some s => s
  | none => itoa code

/-! ### mux.go: label coalescing -/

/-- The loop body of `coalesce` in `mux.go`: scan with index `i`; on an
empty entry, shift the tail back one and chop the last element (i.e.
remove index `i`), otherwise advance. -/
def coalesceLoop (labels : List String) (i : Nat) : List String :=
  if h : i < labels.length then
    if labels.get ⟨i, h⟩ = "" then
      coalesceLoop (labels.take i ++ labels.drop (i + 1)) i
    else
      coalesceLoop labels (i + 1)
  else labels
termination_by labels.length - i
decreasing_by
  · simp only [List.length_append, List.length_take, List.length_drop]
    omega
  · omega

/-- `coalesce` from `mux.go` (variadic in Go, a list here). -/
def coalesce (labels : List String) : List String := coalesceLoop labels 0

/-- `maybe` from `mux.go`. -/
def maybe (label : String) (yes : Bool) : String := if yes then label else ""

/-! ### delegator.go

The underlying `http.ResponseWriter` is modelled as a record of stateful
operations over an abstract writer-state `σ`; each of the five optional
interfaces (`http.CloseNotifier`, `http.Flusher`, `http.Hijacker`,
`io.ReaderFrom`, `http.Pusher`) is an `Option` field, `isSome` exactly when
the Go type assertion would succeed. Byte slices are `List Nat`, channels,
connections, readers and push options are abstract `Nat` handles, and an
`error` is an `Option String`. -/

/-- Model of the wrapped `http.ResponseWriter` with its five optional
capabilities. -/
structure ResponseWriter (σ : Type) where
  write : List Nat → σ → (Int × Option String) × σ
  writeHeader : Int → σ → σ
  closeNotify : Option (σ → Nat × σ)
  flush : Option (σ → σ)
  hijack : Option (σ → (Nat × Nat × Option String) × σ)
  readFrom : Option (Nat → σ → (Int × Option String) × σ)
  push : Option (String → Nat → σ → Option String × σ)

/-- Capability bit constants from `delegator.go`. -/
def closeNotifier : Nat := 1

def flusher : Nat := 2

def hijacker : Nat := 4

def readerFrom : Nat := 8

def pusher : Nat := 16

/-- `responseWriterDelegator`: the base delegate record. -/
structure responseWriterDelegator (σ : Type) where
  writer : ResponseWriter σ
  status : Int
  written : Int

/-- The full per-request state: the delegate's mutable fields together
with the underlying writer's state. -/
def DState (σ : Type) := responseWriterDelegator σ × σ

/-- `responseWriterDelegator.Status`. -/
def responseWriterDelegator.Status (r : responseWriterDelegator σ) : Int :=
  r.status

/-- `responseWriterDelegator.Written`. -/
def responseWriterDelegator.Written (r : responseWriterDelegator σ) : Int :=
  r.written

/-- `responseWriterDelegator.WriteHeader`: record the code, forward. -/
def responseWriterDelegator.WriteHeader (code : Int) : DState σ → DState σ
  | (r, s) => ({ r with status := code }, r.writer.writeHeader code s)

/-- `responseWriterDelegator.Write`: forward, then add the reported count
to `written`. -/
def responseWriterDelegator.Write (b : List Nat) :
    DState σ → (Int × Option String) × DState σ
  | (r, s) =>
    let res := r.writer.write b s
    (res.1, ({ r with written := r.written + res.1.1 }, res.2))

/-- `closeNotifierDelegator.CloseNotify`: forward the type-asserted call to
the underlying writer (the `none` branch is the unreachable failed
assertion). -/
def closeNotifierDelegator.CloseNotify : DState σ → Nat × DState σ
  | (r, s) =>
    match r.writer.closeNotify with
    | some f => let res := f s; (res.1, (r, res.2))
    | none => (0, (r, s))

/-- `flusherDelegator.Flush`: forward the type-asserted call. -/
def flusherDelegator.Flush : DState σ → DState σ
  | (r, s) =>
    match r.writer.flush with
    | some f => (r, f s)
    | none => (r, s)

/-- `hijackerDelegator.Hijack`: forward the type-asserted call. -/
def hijackerDelegator.Hijack : DState σ → (Nat × Nat × Option String) × DState σ
  | (r, s) =>
    match r.writer.hijack with
    | some f => let res := f s; (res.1, (r, res.2))
    | none => ((0, 0, none), (r, s))

/-- `readerFromDelegator.ReadFrom`: forward the type-asserted call and add
the reported count to `written`. -/
def readerFromDelegator.ReadFrom (re : Nat) :
    DState σ → (Int × Option String) × DState σ
  | (r, s) =>
    match r.writer.readFrom with
    | some f =>
      let res := f re s
      (res.1, ({ r with written := r.written + res.1.1 }, res.2))
    | none => ((0, none), (r, s))

/-- `pusherDelegator.Push`: forward the type-asserted call. -/
def pusherDelegator.Push (target : String) (opts : Nat) :
    DState σ → Option String × DState σ
  | (r, s) =>
    match r.writer.push with
    | some f => let res := f target opts s; (res.1, (r, res.2))
    | none => (none, (r, s))

/-- The value returned by `NewDelegator`: the base delegate plus exactly
the capability methods the selected `pickDelegator` entry embeds
(an unsupported capability is `none`, so probing it fails as in Go). -/
structure Delegator (σ : Type) where
  core : responseWriterDelegator σ
  CloseNotify : Option (DState σ → Nat × DState σ)
  Flush : Option (DState σ → DState σ)
  Hijack : Option (DState σ → (Nat × Nat × Option String) × DState σ)
  ReadFrom : Option (Nat → DState σ → (Int × Option String) × DState σ)
  Push : Option (String → Nat → DState σ → Option String × DState σ)

/-- The 32-entry `pickDelegator` table from `delegator.go`, entry by
entry; entry `id` embeds exactly the capabilities in `id`'s bit set.
Indices outside 0..31 never occur (the catch-all mirrors entry 0). -/
def pickDelegator (id : Nat) (d : responseWriterDelegator σ) : Delegator σ :=
  match id with
  | 0 => { core := d, CloseNotify := none, Flush := none, Hijack := none, ReadFrom := none, Push := none }
  | 1 => { core := d, CloseNotify := some closeNotifierDelegator.CloseNotify, Flush := none, Hijack := none, ReadFrom := none, Push := none }
  | 2 => { core := d, CloseNotify := none, Flush := some flusherDelegator.Flush, Hijack := none, ReadFrom := none, Push := none }
  | 3 => { core := d, CloseNotify := some closeNotifierDelegator.CloseNotify, Flush := some flusherDelegator.Flush, Hijack := none, ReadFrom := none, Push := none }
  | 4 => { core := d, CloseNotify := none, Flush := none, Hijack := some hijackerDelegator.Hijack, ReadFrom := none, Push := none }
  | 5 => { core := d, CloseNotify := some closeNotifierDelegator.CloseNotify, Flush := none, Hijack := some hijackerDelegator.Hijack, ReadFrom := none, Push := none }
  | 6 => { core := d, CloseNotify := none, Flush := some flusherDelegator.Flush, Hijack := some hijackerDelegator.Hijack, ReadFrom := none, Push := none }
  | 7 => { core := d, CloseNotify := some closeNotifierDelegator.CloseNotify, Flush := some flusherDelegator.Flush, Hijack := some hijackerDelegator.Hijack, ReadFrom := none, Push := none }
  | 8 => { core := d, CloseNotify := none, Flush := none, Hijack := none, ReadFrom := some readerFromDelegator.ReadFrom, Push := none }
  | 9 => { core := d, CloseNotify := some closeNotifierDelegator.CloseNotify, Flush := none, Hijack := none, ReadFrom := some readerFromDelegator.ReadFrom, Push := none }
  | 10 => { core := d, CloseNotify := none, Flush := some flusherDelegator.Flush, Hijack := none, ReadFrom := some readerFromDelegator.ReadFrom, Push := none }
  | 11 => { core := d, CloseNotify := some closeNotifierDelegator.CloseNotify, Flush := some flusherDelegator.Flush, Hijack := none, ReadFrom := some readerFromDelegator.ReadFrom, Push := none }
  | 12 => { core := d, CloseNotify := none, Flush := none, Hijack := some hijackerDelegator.Hijack, ReadFrom := some readerFromDelegator.ReadFrom, Push := none }
  | 13 => { core := d, CloseNotify := some closeNotifierDelegator.CloseNotify, Flush := none, Hijack := some hijackerDelegator.Hijack, ReadFrom := some readerFromDelegator.ReadFrom, Push := none }
  | 14 => { core := d, CloseNotify := none, Flush := some flusherDelegator.Flush, Hijack := some hijackerDelegator.Hijack, ReadFrom := some readerFromDelegator.ReadFrom, Push := none }
  | 15 => { core := d, CloseNotify := some closeNotifierDelegator.CloseNotify, Flush := some flusherDelegator.Flush, Hijack := some hijackerDelegator.Hijack, ReadFrom := some readerFromDelegator.ReadFrom, Push := none }
  | 16 => { core := d, CloseNotify := none, Flush := none, Hijack := none, ReadFrom := none, Push := some pusherDelegator.Push }
  | 17 => { core := d, CloseNotify := some closeNotifierDelegator.CloseNotify, Flush := none, Hijack := none, ReadFrom := none, Push := some pusherDelegator.Push }
  | 18 => { core := d, CloseNotify := none, Flush := some flusherDelegator.Flush, Hijack := none, ReadFrom := none, Push := some pusherDelegator.Push }
  | 19 => { core := d, CloseNotify := some closeNotifierDelegator.CloseNotify, Flush := some flusherDelegator.Flush, Hijack := none, ReadFrom := none, Push := some pusherDelegator.Push }
  | 20 => { core := d, CloseNotify := none, Flush := none, Hijack := some hijackerDelegator.Hijack, ReadFrom := none, Push := some pusherDelegator.Push }
  | 21 => { core := d, CloseNotify := some closeNotifierDelegator.CloseNotify, Flush := none, Hijack := some hijackerDelegator.Hijack, ReadFrom := none, Push := some pusherDelegator.Push }
  | 22 => { core := d, CloseNotify := none, Flush := some flusherDelegator.Flush, Hijack := some hijackerDelegator.Hijack, ReadFrom := none, Push := some pusherDelegator.Push }
  | 23 => { core := d, CloseNotify := some closeNotifierDelegator.CloseNotify, Flush := some flusherDelegator.Flush, Hijack := some hijackerDelegator.Hijack, ReadFrom := none, Push := some pusherDelegator.Push }
  | 24 => { core := d, CloseNotify := none, Flush := none, Hijack := none, ReadFrom := some readerFromDelegator.ReadFrom, Push := some pusherDelegator.Push }
  | 25 => { core := d, CloseNotify := some closeNotifierDelegator.CloseNotify, Flush := none, Hijack := none, ReadFrom := some readerFromDelegator.ReadFrom, Push := some pusherDelegator.Push }
  | 26 => { core := d, CloseNotify := none, Flush := some flusherDelegator.Flush, Hijack := none, ReadFrom := some readerFromDelegator.ReadFrom, Push := some pusherDelegator.Push }
  | 27 => { core := d, CloseNotify := some closeNotifierDelegator.CloseNotify, Flush := some flusherDelegator.Flush, Hijack := none, ReadFrom := some readerFromDelegator.ReadFrom, Push := some pusherDelegator.Push }
  | 28 => { core := d, CloseNotify := none, Flush := none, Hijack := some hijackerDelegator.Hijack, ReadFrom := some readerFromDelegator.ReadFrom, Push := some pusherDelegator.Push }
  | 29 => { core := d, CloseNotify := some closeNotifierDelegator.CloseNotify, Flush := none, Hijack := some hijackerDelegator.Hijack, ReadFrom := some readerFromDelegator.ReadFrom, Push := some pusherDelegator.Push }
  | 30 => { core := d, CloseNotify := none, Flush := some flusherDelegator.Flush, Hijack := some hijackerDelegator.Hijack, ReadFrom := some readerFromDelegator.ReadFrom, Push := some pusherDelegator.Push }
  | 31 => { core := d, CloseNotify := some closeNotifierDelegator.CloseNotify, Flush := some flusherDelegator.Flush, Hijack := some hijackerDelegator.Hijack, ReadFrom := some readerFromDelegator.ReadFrom, Push := some pusherDelegator.Push }
  | _ => { core := d, CloseNotify := none, Flush := none, Hijack := none, ReadFrom := none, Push := none }

/-- `NewDelegator`: probe the writer's five capabilities, sum the bits,
and dispatch through `pickDelegator`. The status starts at
`http.StatusOK` (200), `written` at the zero value. -/
def NewDelegator (w : ResponseWriter σ) : Delegator σ :=
  let d : responseWriterDelegator σ := { writer := w, status := 200, written := 0 }
  let id :=
    (if w.closeNotify.isSome then closeNotifier else 0) +
    (if w.flush.isSome then flusher else 0) +
    (if w.hijack.isSome then hijacker else 0) +
    (if w.readFrom.isSome then readerFrom else 0) +
    (if w.push.isSome then pusher else 0)
  pickDelegator id d

/-! ### mux.go: middleware

A prometheus `GaugeVec` mutation `WithLabelValues(vs...).Inc()`/`.Dec()` is
modelled as an appended event, so a run of the instrumented handler yields
the exact ordered trace of metric mutations. A wrapped handler either
returns normally with the final delegate state or unwinds (Go panic /
client-disconnect abort), modelled by `Outcome`. -/

/-- One mutation of the middleware's two metric vectors, keyed by the
label values passed to `WithLabelValues`. -/
inductive MetricEvent
  | pendingInc (labelValues : List String)
  | pendingDec (labelValues : List String)
  | requestsInc (labelValues : List String)
deriving DecidableEq, Repr

/-- Whether an event decrements the pending gauge. -/
def MetricEvent.isPendingDec : MetricEvent → Bool
  | .pendingDec _ => true
  | _ => false

/-- Whether an event increments the completed-requests counter. -/
def MetricEvent.isRequestsInc : MetricEvent → Bool
  | .requestsInc _ => true
  | _ => false

/-- How a wrapped handler run ends: a normal return or an unwind
(panic), each carrying the delegate state it left behind. -/
inductive Outcome (α : Type)
  | ok (a : α)
  | panicked (a : α)
deriving DecidableEq

/-- An `*http.Request` (only the method matters to this middleware). -/
structure Request where
  method : String

/-- A wrapped `http.Handler`'s `ServeHTTP`: it receives the delegate and
the request and transforms the per-request state, possibly unwinding. -/
def HandlerFn (σ : Type) := Delegator σ → Request → DState σ → Outcome (DState σ)

/-- The `Middleware` configuration fields set by the `Option` values. -/
structure Middleware where
  nameSpace : String
  constLabels : List (String × String)
  method : Bool
  code : Bool

/-- `Middleware.pendingBeforeFunc`: the per-configuration closure that
increments the pending gauge. -/
def Middleware.pendingBeforeFunc (mw : Middleware) :
    String → String → List MetricEvent :=
  if mw.method then
    fun handler method => [.pendingInc [handler, method]]
  else
    fun handler _ => [.pendingInc [handler]]

/-- `Middleware.pendingDeferFunc`: the per-configuration closure that
decrements the pending gauge. -/
def Middleware.pendingDeferFunc (mw : Middleware) :
    String → String → List MetricEvent :=
  if mw.method then
    fun handler method => [.pendingDec [handler, method]]
  else
    fun handler _ => [.pendingDec [handler]]

/-- `Middleware.requestsAfterFunc`: the four-variant dispatch, fixed at
construction time, that increments the completed-requests counter. -/
def Middleware.requestsAfterFunc (mw : Middleware) :
    String → String → String → List MetricEvent :=
  if mw.method && mw.code then
    fun handler method code => [.requestsInc [handler, method, code]]
  else if mw.method then
    fun handler method _ => [.requestsInc [handler, method]]
  else if mw.code then
    fun handler _ code => [.requestsInc [handler, code]]
  else
    fun handler _ _ => [.requestsInc [handler]]

/-- `handlerConfig`: a registered handler with its name and the three
metric closures chosen at registration time. -/
structure handlerConfig (σ : Type) where
  name : String
  handler : HandlerFn σ
  pendingBefore : String → String → List MetricEvent
  pendingDefer : String → String → List MetricEvent
  requestAfter : String → String → String → List MetricEvent

/-- `handlerConfig.ServeHTTP`: normalize the method, increment pending,
run the wrapped handler through a fresh delegate, and — via `defer` —
decrement pending on every exit path; on a normal return only, resolve the
recorded status and increment the completed counter before the deferred
decrement runs. Returns the outcome propagated to the server and the
ordered metric-event trace. -/
def handlerConfig.ServeHTTP (h : handlerConfig σ) (w : ResponseWriter σ)
    (s : σ) (r : Request) : Outcome Unit × List MetricEvent :=
  let method := lookupMethod r.method
  let before := h.pendingBefore h.name method
  let d := NewDelegator w
  match h.handler d r (d.core, s) with
  | .panicked _ =>
    (.panicked (), before ++ h.pendingDefer h.name method)
  | .ok st =>
    let code := lookupCode st.1.Status
    (.ok (),
      before ++ h.requestAfter h.name method code ++ h.pendingDefer h.name method)

/-- `Middleware.handler`: panics (modelled as `Except.error`) on a nil
handler, otherwise builds the `handlerConfig` with the three metric
closures. -/
def Middleware.handler (mw : Middleware) (name : String)
    (handler : Option (HandlerFn σ)) : Except String (handlerConfig σ) :=
  match handler with
  | none => .error "promhttp: nil handler"
  | some h =>
    .ok
      { name := name
        handler := h
        pendingBefore := mw.pendingBeforeFunc
        pendingDefer := mw.pendingDeferFunc
        requestAfter := mw.requestsAfterFunc }

/-- The variable label names `Middleware.init` passes when constructing the
`http_server_requests_total` vector. -/
def Middleware.requestsLabels (mw : Middleware) : List String :=
  coalesce ["handler", maybe "method" mw.method, maybe "code" mw.code]

/-- The variable label names `Middleware.init` passes when constructing the
`http_server_requests_pending` vector. -/
def Middleware.pendingLabels (mw : Middleware) : List String :=
  coalesce ["handler", maybe "method" mw.method]

/-! ### Fixtures and run functions used by the theorems -/

/-- A write-path operation: a standard `Write` or a bulk-copy
`ReadFrom`. -/
inductive WriteOp
  | write (b : List Nat)
  | readFrom (re : Nat)

/-- Run a sequence of write operations through the delegate; returns the
byte counts reported by the underlying writer, one per call, and the
final state. -/
def runOps : List WriteOp → DState σ → List Int × DState σ
  | [], st => ([], st)
  | .write b :: rest, st =>
    let res := responseWriterDelegator.Write b st
    let tail := runOps rest res.2
    (res.1.1 :: tail.1, tail.2)
  | .readFrom re :: rest, st =>
    let res := readerFromDelegator.ReadFrom re st
    let tail := runOps rest res.2
    (res.1.1 :: tail.1, tail.2)

/-- Run a sequence of body writes with no explicit header write. -/
def runWrites : List (List Nat) → DState σ → DState σ
  | [], st => st
  | b :: rest, st => runWrites rest (responseWriterDelegator.Write b st).2

/-- A concrete writer over trivial state with none of the five optional
capabilities. -/
def unitWriter : ResponseWriter Unit where
  write := fun b _ => ((Int.ofNat b.length, none), ())
  writeHeader := fun _ _ => ()
  closeNotify := none
  flush := none
  hijack := none
  readFrom := none
  push := none

/-- A concrete writer over `Nat` state supporting all five optional
capabilities. -/
def fullWriter : ResponseWriter Nat where
  write := fun b s => ((Int.ofNat b.length, none), s + b.length)
  writeHeader := fun _ s => s
  closeNotify := some fun s => (7, s + 1)
  flush := some fun s => s + 2
  hijack := some fun s => ((3, 4, none), s + 5)
  readFrom := some fun re s => ((Int.ofNat re, none), s + re)
  push := some fun _ _ s => (none, s + 9)

/-- A wrapped handler that returns normally without touching the
delegate. -/
def okHandler : HandlerFn Unit := fun _ _ st => .ok st

/-- A wrapped handler that unwinds (panics). -/
def panicHandler : HandlerFn Unit := fun _ _ st => .panicked st

/-- A concrete middleware configuration with both optional labels off. -/
def mwPlain : Middleware where
  nameSpace := ""
  constLabels := []
  method := false
  code := false

/-- The handler configuration `mwPlain.handler "h"` builds around
`okHandler`. -/
def cfgPlain : handlerConfig Unit where
  name := "h"
  handler := okHandler
  pendingBefore := mwPlain.pendingBeforeFunc
  pendingDefer := mwPlain.pendingDeferFunc
  requestAfter := mwPlain.requestsAfterFunc

/-! ## Helper lemmas -/

/-- A successful association-list lookup exhibits a member pair. -/
theorem mem_of_lookup_eq_some {α β : Type} [BEq α] [LawfulBEq α]
    {l : List (α × β)} {k : α} {v : β} (h : l.lookup k = some v) :
    (k, v) ∈ l := by
  induction l with
  | nil => simp [List.lookup] at h
  | cons p rest ih =>
    rw [List.lookup] at h
    split at h
    · next heq =>
      cases h
      have hk : k = p.1 := eq_of_beq heq
      subst hk
      exact List.mem_cons_self _ _
    · exact List.mem_cons_of_mem _ (ih h)

/-- Every entry of `methodTable` maps its key to the key's lowercase
form. -/
theorem methodTable_entries : ∀ p ∈ methodTable, p.2 = toLower p.1 := by
  decide

/-- Every entry of `codeTable` maps its key to the key's decimal string. -/
theorem codeTable_entries : ∀ p ∈ codeTable, p.2 = itoa p.1 := by
  have key : ∀ (cs : List Int) (acc : List (Int × String)),
      (∀ p ∈ acc, p.2 = itoa p.1) →
      ∀ p ∈ cs.foldl (fun t code => (code, itoa code) :: t) acc,
        p.2 = itoa p.1 := by
    intro cs
    induction cs with
    | nil => exact fun acc hacc => hacc
    | cons c rest ih =>
      intro acc hacc
      refine ih _ ?_
      intro q hq
      rcases List.mem_cons.mp hq with hq | hq
      · subst hq; rfl
      · exact hacc q hq
  exact key codes [] (by simp)

/-- `coalesceLoop` keeps the first `i` entries and filters the empty
strings out of the rest. -/
theorem coalesceLoop_eq (labels : List String) (i : Nat) :
    coalesceLoop labels i =
      labels.take i ++ (labels.drop i).filter (fun s => decide (s ≠ "")) := by
  induction labels, i using coalesceLoop.induct with
  | case1 labels i h hget ih =>
    have hget' : labels[i] = "" := by simpa using hget
    rw [coalesceLoop, dif_pos h, if_pos hget, ih]
    have htk : (labels.take i).length = i := by
      simp [List.length_take]; omega
    rw [List.take_left' htk, List.drop_left' htk]
    rw [List.drop_eq_getElem_cons h, List.filter_cons]
    simp [hget']
  | case2 labels i h hget ih =>
    have hget' : ¬labels[i] = "" := by simpa using hget
    rw [coalesceLoop, dif_pos h, if_neg hget, ih]
    rw [List.drop_eq_getElem_cons h, List.filter_cons]
    have htk : labels.take (i + 1) = labels.take i ++ [labels[i]] := by
      rw [List.take_succ]
      simp [List.getElem?_eq_getElem h]
    rw [htk, List.append_assoc]
    congr 1
    simp [hget']
  | case3 labels i h =>
    rw [coalesceLoop, dif_neg h]
    rw [List.take_of_length_le (by omega), List.drop_of_length_le (by omega)]
    simp

/-- `coalesce` is the empty-string filter. -/
theorem coalesce_eq_filter (labels : List String) :
    coalesce labels = labels.filter (fun s => decide (s ≠ "")) := by
  rw [coalesce, coalesceLoop_eq]
  simp

/-- Every `pickDelegator` entry keeps the base delegate it is given. -/
theorem pickDelegator_core (id : Nat) (d : responseWriterDelegator σ) :
    (pickDelegator id d).core = d := by
  unfold pickDelegator
  split <;> rfl

/-- `NewDelegator` starts from status 200, zero bytes written, and the
probed writer. -/
theorem NewDelegator_core (w : ResponseWriter σ) :
    (NewDelegator w).core = { writer := w, status := 200, written := 0 } := by
  rw [NewDelegator]
  exact pickDelegator_core _ _

/-- `Write` leaves the recorded status unchanged. -/
theorem Write_status (b : List Nat) (st : DState σ) :
    (responseWriterDelegator.Write b st).2.1.status = st.1.status := by
  obtain ⟨r, s⟩ := st
  rfl

/-- `Write` adds exactly the count the underlying writer reported. -/
theorem Write_written (b : List Nat) (st : DState σ) :
    (responseWriterDelegator.Write b st).2.1.written =
      st.1.written + (responseWriterDelegator.Write b st).1.1 := by
  obtain ⟨r, s⟩ := st
  rfl

/-- `ReadFrom` adds exactly the count the underlying writer reported. -/
theorem ReadFrom_written (re : Nat) (st : DState σ) :
    (readerFromDelegator.ReadFrom re st).2.1.written =
      st.1.written + (readerFromDelegator.ReadFrom re st).1.1 := by
  obtain ⟨r, s⟩ := st
  rw [readerFromDelegator.ReadFrom]
  rcases r.writer.readFrom with _ | f <;> simp

/-- `runWrites` never changes the recorded status. -/
theorem runWrites_status (bs : List (List Nat)) (st : DState σ) :
    (runWrites bs st).1.status = st.1.status := by
  induction bs generalizing st with
  | nil => rfl
  | cons b rest ih => rw [runWrites, ih, Write_status]

/-- `runOps` adds exactly the sum of the reported counts to `written`. -/
theorem runOps_written (ops : List WriteOp) (st : DState σ) :
    (runOps ops st).2.1.written =
      st.1.written + (runOps ops st).1.sum := by
  induction ops generalizing st with
  | nil => simp [runOps]
  | cons op rest ih =>
    cases op with
    | write b =>
      rw [runOps]
      simp only [List.sum_cons]
      rw [ih, Write_written]
      ring
    | readFrom re =>
      rw [runOps]
      simp only [List.sum_cons]
      rw [ih, ReadFrom_written]
      ring

/-! ## Claim theorems -/

/-- Claim C2, as stated, is false: `WriteHeader` records every call's
code unconditionally, so after `WriteHeader 404` then `WriteHeader 500`
on a fresh delegate, `Status()` is 500, not the first call's 404. -/
theorem writeHeader_first_code_counterexample :
    ¬ (responseWriterDelegator.WriteHeader 500
        (responseWriterDelegator.WriteHeader 404
          ((NewDelegator unitWriter).core, ()))).1.Status = 404 := by
  decide

/-- Claim C2 (amended): for every delegate created by `NewDelegator`, if
`WriteHeader` is called more than once with distinct codes, `Status()`
afterwards returns the code of the last `WriteHeader` call, not the
first one. -/
theorem writeHeader_last_code (w : ResponseWriter σ) (s : σ) (a b : Int)
    (hab : a ≠ b) :
    (responseWriterDelegator.WriteHeader b
      (responseWriterDelegator.WriteHeader a
        ((NewDelegator w).core, s))).1.Status = b := by
  rfl

/-- Witness for the amended claim C2 at a concrete delegate and codes. -/
theorem writeHeader_last_code_witness :
    (responseWriterDelegator.WriteHeader 500
      (responseWriterDelegator.WriteHeader 404
        ((NewDelegator unitWriter).core, ()))).1.Status = 500 :=
  writeHeader_last_code unitWriter () 404 500 (by decide)

/-- Claim C4: for every delegate and every sequence of writes through it
(standard `Write` calls and bulk-copy `ReadFrom` calls interleaved),
`Written()` equals the sum of the byte counts reported by the underlying
writer for each call, so bytes moved through the `ReadFrom` path are
included in the total. -/
theorem written_accounts_all_paths (w : ResponseWriter σ) (s : σ)
    (ops : List WriteOp) :
    (runOps ops ((NewDelegator w).core, s)).2.1.Written =
      (runOps ops ((NewDelegator w).core, s)).1.sum := by
  rw [responseWriterDelegator.Written, runOps_written, NewDelegator_core]
  simp

/-- Claim C5: `coalesce` removes exactly the empty entries, preserving
the relative order of the rest (it is the empty-string filter, and a
sublist of its input), its output never contains an empty entry, and it
is idempotent. -/
theorem coalesce_compaction (labels : List String) :
    coalesce labels = labels.filter (fun s => decide (s ≠ "")) ∧
    "" ∉ coalesce labels ∧
    coalesce (coalesce labels) = coalesce labels ∧
    (coalesce labels).Sublist labels := by
  refine ⟨coalesce_eq_filter labels, ?_, ?_, ?_⟩
  · rw [coalesce_eq_filter]
    intro hmem
    have := List.of_mem_filter hmem
    simp at this
  · rw [coalesce_eq_filter, coalesce_eq_filter, List.filter_filter]
    simp
  · rw [coalesce_eq_filter]
    exact List.filter_sublist _

/-- Claim C6: for every middleware configuration, the metric label sets
are a pure function of the two option flags: the completed counter is
labeled by `handler`, plus `method` iff the method option is on, plus
`code` iff the code option is on; the pending gauge is labeled by
`handler`, plus `method` iff the method option is on, and never by
`code`. -/
theorem middleware_label_sets (mw : Middleware) :
    mw.requestsLabels =
      "handler" ::
        ((if mw.method then ["method"] else []) ++
          (if mw.code then ["code"] else [])) ∧
    mw.pendingLabels = "handler" :: (if mw.method then ["method"] else []) ∧
    ("method" ∈ mw.requestsLabels ↔ mw.method = true) ∧
    ("code" ∈ mw.requestsLabels ↔ mw.code = true) ∧
    ("method" ∈ mw.pendingLabels ↔ mw.method = true) ∧
    "code" ∉ mw.pendingLabels := by
  obtain ⟨ns, cl, method, code⟩ := mw
  cases method <;> cases code <;>
    simp [Middleware.requestsLabels, Middleware.pendingLabels,
      coalesce_eq_filter, maybe]

/-- Claim C7: a delegate created by `NewDelegator` on which `WriteHeader`
is never called reports the default success status 200, including after
any sequence of body writes with no prior explicit header write. -/
theorem status_defaults_ok (w : ResponseWriter σ) (s : σ)
    (bs : List (List Nat)) :
    (runWrites bs ((NewDelegator w).core, s)).1.Status = 200 := by
  rw [responseWriterDelegator.Status, runWrites_status, NewDelegator_core]

/-- Claim C8: `lookupMethod` returns the canonical lowercase form: each
standard method token, upper or lower case, hits the precomputed table
and maps to its lowercase form; any string missing from the table falls
back to the generic lowercase conversion, preserving the literal token
value rather than collapsing to an "unknown" sentinel. -/
theorem lookupMethod_canonicalization :
    (∀ m ∈ methods,
      methodTable.lookup m = some (toLower m) ∧
      methodTable.lookup (toLower m) = some (toLower m) ∧
      lookupMethod m = toLower m ∧
      lookupMethod (toLower m) = toLower m) ∧
    (∀ s, methodTable.lookup s = none → lookupMethod s = toLower s) ∧
    lookupMethod "GET" = "get" ∧
    lookupMethod "get" = "get" ∧
    lookupMethod "PATCH" = "patch" ∧
    lookupMethod "FOOBAR" = "foobar" := by
  refine ⟨by decide, ?_, by decide, by decide, by decide, by decide⟩
  intro s h
  simp [lookupMethod, h]

/-- Witness for claim C8's table-hit and fallback clauses at concrete
inputs. -/
theorem lookupMethod_canonicalization_witness :
    methodTable.lookup "GET" = some (toLower "GET") ∧
    lookupMethod "FOOBAR" = toLower "FOOBAR" :=
  ⟨(lookupMethod_canonicalization.1 "GET" (by decide)).1,
   lookupMethod_canonicalization.2.1 "FOOBAR" (by decide)⟩

/-- Claim C9: registering a wrapper around an absent (nil) handler fails
fast with a panic (modelled as the `Except.error` carrying the panic
message) rather than installing a no-op; with a present handler it
succeeds and the wrapper holds exactly that handler. -/
theorem handler_nil_fails_fast (σ : Type) (mw : Middleware) (name : String) :
    mw.handler name (none : Option (HandlerFn σ)) =
      .error "promhttp: nil handler" ∧
    ∀ hf : HandlerFn σ, ∃ cfg,
      mw.handler name (some hf) = .ok cfg ∧ cfg.handler = hf := by
  exact ⟨rfl, fun hf => ⟨_, rfl, rfl⟩⟩

/-- Claim C10: the precomputed tables are pure caches — the table fast
path and the fallback path are extensionally equal: `lookupMethod` is the
generic lowercase conversion on every string, and `lookupCode` is the
generic decimal conversion on every integer. -/
theorem lookup_tables_pure_cache :
    (∀ m : String, lookupMethod m = toLower m) ∧
    (∀ c : Int, lookupCode c = itoa c) := by
  constructor
  · intro m
    rcases h : methodTable.lookup m with _ | s
    · simp [lookupMethod, h]
    · have hv := methodTable_entries _ (mem_of_lookup_eq_some h)
      simpa [lookupMethod, h] using hv
  · intro c
    rcases h : codeTable.lookup c with _ | s
    · simp [lookupCode, h]
    · have hv := codeTable_entries _ (mem_of_lookup_eq_some h)
      simpa [lookupCode, h] using hv

/-- Witness for claim C10 at concrete inputs, one per table. -/
theorem lookup_tables_pure_cache_witness :
    lookupMethod "PoSt" = toLower "PoSt" ∧ lookupCode 999 = itoa 999 :=
  ⟨lookup_tables_pure_cache.1 "PoSt", lookup_tables_pure_cache.2 999⟩

/-- Claim C3: for every request served by an instrumented handler built
by `Middleware.handler`, the metric-event trace contains exactly one
pending-gauge decrement, keyed by the same label combination as the
increment, on both the normal-return path and the panic path; the
completed counter is incremented exactly once on a normal return and not
at all on an abnormal exit. -/
theorem serveHTTP_pending_exactly_once (σ : Type) (mw : Middleware)
    (name : String) (hf : HandlerFn σ) (cfg : handlerConfig σ)
    (w : ResponseWriter σ) (s : σ) (r : Request)
    (hcfg : mw.handler name (some hf) = .ok cfg) :
    ((cfg.ServeHTTP w s r).2.filter MetricEvent.isPendingDec =
      [.pendingDec
        (if mw.method then [name, lookupMethod r.method] else [name])]) ∧
    ((cfg.ServeHTTP w s r).2.filter (fun e =>
        match e with
        | .pendingInc _ => true
        | _ => false) =
      [.pendingInc
        (if mw.method then [name, lookupMethod r.method] else [name])]) ∧
    ((cfg.ServeHTTP w s r).1 = .ok () →
      ((cfg.ServeHTTP w s r).2.filter MetricEvent.isRequestsInc).length = 1) ∧
    ((cfg.ServeHTTP w s r).1 = .panicked () →
      (cfg.ServeHTTP w s r).2.filter MetricEvent.isRequestsInc = []) := by
  have hc : cfg =
      { name := name
        handler := hf
        pendingBefore := mw.pendingBeforeFunc
        pendingDefer := mw.pendingDeferFunc
        requestAfter := mw.requestsAfterFunc } := by
    simpa [Middleware.handler, eq_comm] using hcfg
  subst hc
  rcases hres :
      hf (NewDelegator w) r ((NewDelegator w).core, s) with st | st <;>
    rcases hm : mw.method <;> rcases hcode : mw.code <;>
      simp [handlerConfig.ServeHTTP, hres, Middleware.pendingBeforeFunc,
        Middleware.pendingDeferFunc, Middleware.requestsAfterFunc, hm, hcode,
        MetricEvent.isPendingDec, MetricEvent.isRequestsInc, List.filter]

/-- Witness for claim C3 at a concrete middleware, handler and request. -/
theorem serveHTTP_pending_exactly_once_witness :
    (cfgPlain.ServeHTTP unitWriter () { method := "GET" }).2.filter
        MetricEvent.isPendingDec =
      [.pendingDec
        (if mwPlain.method then ["h", lookupMethod "GET"] else ["h"])] :=
  (serveHTTP_pending_exactly_once Unit mwPlain "h" okHandler cfgPlain
    unitWriter () { method := "GET" } rfl).1

/-- Claim C1: for every writer, over all 32 capability combinations,
`NewDelegator` yields a delegate on which each of the five capabilities
is probeable exactly when it is probeable on the wrapped writer; each
supported capability is the corresponding forwarding method, and that
method passes its arguments to the underlying writer's implementation and
returns its result unchanged (adding the reported count to `written` on
the `ReadFrom` path). -/
theorem NewDelegator_capability_exact (σ : Type) (w : ResponseWriter σ) :
    ((NewDelegator w).CloseNotify.isSome = w.closeNotify.isSome ∧
     (NewDelegator w).Flush.isSome = w.flush.isSome ∧
     (NewDelegator w).Hijack.isSome = w.hijack.isSome ∧
     (NewDelegator w).ReadFrom.isSome = w.readFrom.isSome ∧
     (NewDelegator w).Push.isSome = w.push.isSome) ∧
    ((NewDelegator w).CloseNotify =
        w.closeNotify.map (fun _ => closeNotifierDelegator.CloseNotify) ∧
     (NewDelegator w).Flush = w.flush.map (fun _ => flusherDelegator.Flush) ∧
     (NewDelegator w).Hijack =
        w.hijack.map (fun _ => hijackerDelegator.Hijack) ∧
     (NewDelegator w).ReadFrom =
        w.readFrom.map (fun _ => readerFromDelegator.ReadFrom) ∧
     (NewDelegator w).Push = w.push.map (fun _ => pusherDelegator.Push)) ∧
    (∀ r : responseWriterDelegator σ, r.writer = w →
      (∀ f, w.closeNotify = some f → ∀ s,
        closeNotifierDelegator.CloseNotify (r, s) = ((f s).1, (r, (f s).2))) ∧
      (∀ f, w.flush = some f → ∀ s,
        flusherDelegator.Flush (r, s) = (r, f s)) ∧
      (∀ f, w.hijack = some f → ∀ s,
        hijackerDelegator.Hijack (r, s) = ((f s).1, (r, (f s).2))) ∧
      (∀ f, w.readFrom = some f → ∀ re s,
        readerFromDelegator.ReadFrom re (r, s) =
          ((f re s).1,
            ({ r with written := r.written + (f re s).1.1 }, (f re s).2))) ∧
      (∀ f, w.push = some f → ∀ t o s,
        pusherDelegator.Push t o (r, s) = ((f t o s).1, (r, (f t o s).2)))) := by
  have hmap :
      (NewDelegator w).CloseNotify =
          w.closeNotify.map (fun _ => closeNotifierDelegator.CloseNotify) ∧
        (NewDelegator w).Flush =
          w.flush.map (fun _ => flusherDelegator.Flush) ∧
        (NewDelegator w).Hijack =
          w.hijack.map (fun _ => hijackerDelegator.Hijack) ∧
        (NewDelegator w).ReadFrom =
          w.readFrom.map (fun _ => readerFromDelegator.ReadFrom) ∧
        (NewDelegator w).Push =
          w.push.map (fun _ => pusherDelegator.Push) := by
    obtain ⟨wr, wh, cn, fl, hj, rf, ps⟩ := w
    rcases cn with _ | f1 <;> rcases fl with _ | f2 <;> rcases hj with _ | f3 <;>
      rcases rf with _ | f4 <;> rcases ps with _ | f5 <;>
        refine ⟨rfl, rfl, rfl, rfl, rfl⟩
  refine ⟨?_, hmap, ?_⟩
  · obtain ⟨h1, h2, h3, h4, h5⟩ := hmap
    rw [h1, h2, h3, h4, h5]
    simp [Option.isSome_map]
  · intro r hr
    refine ⟨?_, ?_, ?_, ?_, ?_⟩
    · intro f hf s
      simp [closeNotifierDelegator.CloseNotify, hr, hf]
    · intro f hf s
      simp [flusherDelegator.Flush, hr, hf]
    · intro f hf s
      simp [hijackerDelegator.Hijack, hr, hf]
    · intro f hf re s
      simp [readerFromDelegator.ReadFrom, hr, hf]
    · intro f hf t o s
      simp [pusherDelegator.Push, hr, hf]

/-- Witness for claim C1 at a concrete all-capability writer and, for
the probe part, the no-capability writer. -/
theorem NewDelegator_capability_exact_witness :
    ((NewDelegator fullWriter).Flush.isSome = fullWriter.flush.isSome) ∧
    ((NewDelegator unitWriter).Flush.isSome = unitWriter.flush.isSome) ∧
    (readerFromDelegator.ReadFrom 6 ((NewDelegator fullWriter).core, 0) =
      ((6, none),
        ({ (NewDelegator fullWriter).core with
            written := (NewDelegator fullWriter).core.written + 6 }, 6))) :=
  ⟨(NewDelegator_capability_exact Nat fullWriter).1.2.1,
   (NewDelegator_capability_exact Unit unitWriter).1.2.1,
   ((NewDelegator_capability_exact Nat fullWriter).2.2
        (NewDelegator fullWriter).core (by rw [NewDelegator_core])).2.2.2.1
      (fun re s => ((Int.ofNat re, none), s + re)) rfl 6 0⟩

end Httpprom
